import Mathlib

/-!
Verification of `packages/language-babel/lib/create-ttl-grammar.js`.

The file shallow-embeds the `CreateTtlGrammar` class: the pattern compiler
(`createGrammarPatterns`), the grammar-document builder (`createGrammarText`),
the content-addressed publish flow (`createGrammar` plus the helpers it calls),
and the debounce scheduler (`observeTtlConfig`).  JavaScript strings are
modelled as `List Char` / `String`; the anchored JavaScript regexes used by the
code are modelled by a small regular-expression datatype with derivative-based
matching (for an anchored regex, `RegExp.test` returns true exactly when the
string is in the regex's language); thrown exceptions are modelled with
`Except`; the file system, grammar registry and notifier are external
capabilities and are modelled as explicit state / event lists.
-/

set_option maxRecDepth 8192

namespace CreateTtlGrammar

/-- Regular expressions over characters, used to embed the JavaScript regex
literals of the source.  `cls p` is a character class. -/
inductive RE where
  | fail : RE
  | eps : RE
  | cls : (Char → Bool) → RE
  | cat : RE → RE → RE
  | alt : RE → RE → RE
  | star : RE → RE

/-- Does the regex accept the empty string? -/
def RE.nullable : RE → Bool
  | .fail => false
  | .eps => true
  | .cls _ => false
  | .cat a b => a.nullable && b.nullable
  | .alt a b => a.nullable || b.nullable
  | .star _ => true

/-- Smart concatenation (keeps derivative terms small). -/
def RE.mkCat : RE → RE → RE
  | .fail, _ => .fail
  | _, .fail => .fail
  | .eps, b => b
  | a, .eps => a
  | a, b => .cat a b

/-- Smart alternation (keeps derivative terms small). -/
def RE.mkAlt : RE → RE → RE
  | .fail, b => b
  | a, .fail => a
  | a, b => .alt a b

/-- Brzozowski derivative of a regex by a character. -/
def RE.deriv : RE → Char → RE
  | .fail, _ => .fail
  | .eps, _ => .fail
  | .cls p, c => if p c then .eps else .fail
  | .cat a b, c =>
    if a.nullable then .mkAlt (.mkCat (a.deriv c) b) (b.deriv c)
    else .mkCat (a.deriv c) b
  | .alt a b, c => .mkAlt (a.deriv c) (b.deriv c)
  | .star a, c => .mkCat (a.deriv c) (.star a)

/-- Full-string match: the whole character list is in the regex's language.
This is `RegExp.test` for a regex anchored with `^...$`. -/
def reMatch (r : RE) (l : List Char) : Bool :=
  (l.foldl RE.deriv r).nullable

/-- Zero-or-one occurrences, the regex `?` postfix operator. -/
def RE.quest (r : RE) : RE := .alt .eps r

/-- JavaScript `\w`: ASCII letters, digits and underscore. -/
def isWordChar (c : Char) : Bool := c.isAlphanum || c = '_'

/-- JavaScript `.` (no `s` flag): any character except a line terminator. -/
def isJsDot (c : Char) : Bool :=
  !(c = '\n' || c = '\r' || c = Char.ofNat 0x2028 || c = Char.ofNat 0x2029)

/-- One segment `[a-zA-Z]\w*\.?` of the include-scope regex. -/
def scopeSeg : RE :=
  .cat (.cls Char.isAlpha) (.cat (.star (.cls isWordChar)) (RE.quest (.cls (fun c => c = '.'))))

/-- The source's include-scope validity regex
`/^([a-zA-Z]\w*\.?)*(\w#([a-zA-Z]\w*\.?)*)?\w$/`. -/
def scopeRE : RE :=
  .cat (.star scopeSeg)
    (.cat (RE.quest (.cat (.cls isWordChar) (.cat (.cls (fun c => c = '#')) (.star scopeSeg))))
      (.cls isWordChar))

/-- The source's quoted-match-string regex `/^\".*\"$/`. -/
def quotedRE : RE :=
  .cat (.cls (fun c => c = '"')) (.cat (.star (.cls isJsDot)) (.cls (fun c => c = '"')))

/-- Index of the last occurrence of `c` (JavaScript `String.lastIndexOf`,
before the `-1` encoding). -/
def lastIdx (c : Char) : List Char → Option Nat
  | [] => none
  | a :: as =>
    match lastIdx c as with
    | some i => some (i + 1)
    | none => if a = c then some 0 else none

/-- JavaScript `ttlString.lastIndexOf(':')`: the last index, or `-1`. -/
def lastColonIndexInt (l : List Char) : Int :=
  match lastIdx ':' l with
  | none => -1
  | some i => i

/-- Clamp a JavaScript `substring` argument into `[0, len]`. -/
def jsClamp (i : Int) (len : Nat) : Nat :=
  if i < 0 then 0 else min i.toNat len

/-- JavaScript `String.substring(a, b)` (clamps both arguments and swaps them
if needed). -/
def jsSubstring (l : List Char) (a b : Int) : List Char :=
  let a' := jsClamp a l.length
  let b' := jsClamp b l.length
  (l.take (max a' b')).drop (min a' b')

/-- JavaScript `String.substring(a)` (one-argument form). -/
def jsSubstringFrom (l : List Char) (a : Int) : List Char :=
  jsSubstring l a l.length

/-- Split a ttl string at its last colon, as the source does:
`matchString = ttlString.substring(0, lastColonIndex)` and
`includeScope = ttlString.substring(lastColonIndex + 1)`. -/
def parseTtl (l : List Char) : List Char × List Char :=
  let lastColonIndex := lastColonIndexInt l
  (jsSubstring l 0 lastColonIndex, jsSubstringFrom l (lastColonIndex + 1))

/-- Replace every character satisfying `p` by `repl c` (a JavaScript global
`String.replace` whose pattern is a single-character class). -/
def replaceEachChar (p : Char → Bool) (repl : Char → List Char) : List Char → List Char
  | [] => []
  | c :: cs => (if p c then repl c else [c]) ++ replaceEachChar p repl cs

/-- Leftmost non-overlapping replacement of the literal pattern `pat` by
`repl` (a JavaScript global `String.replace` with a literal pattern). -/
def listReplace (pat repl : List Char) : List Char → List Char
  | [] => []
  | c :: cs =>
    if h : pat ≠ [] ∧ pat.isPrefixOf (c :: cs) then
      repl ++ listReplace pat repl ((c :: cs).drop pat.length)
    else
      c :: listReplace pat repl cs
termination_by l => l.length
decreasing_by
  · simp only [List.length_drop, List.length_cons]
    have hp : 0 < pat.length := List.length_pos.mpr h.1
    omega
  · simp only [List.length_cons]
    omega

/-- The transformation of a quoted match string:
`matchString.replace(/\\/g,"\\\\")` (each backslash doubled) followed by
`matchString.replace(/\\\\["]/g,"\\\\\\\"")` (each `\\"` becomes `\\\"`). -/
def quotedTransform (l : List Char) : List Char :=
  listReplace ['\\', '\\', '"'] ['\\', '\\', '\\', '"']
    (replaceEachChar (fun c => c = '\\') (fun _ => ['\\', '\\']) l)

/-- The character class `[|{}()[\]^$+*?.]` (`escapeStringRegExp`) of regex
metacharacters escaped in literal match strings. -/
def isEscapeStringRegExpChar (c : Char) : Bool :=
  c = '|' || c = Char.ofNat 123 || c = Char.ofNat 125 || c = '(' || c = ')' ||
  c = '[' || c = ']' || c = '^' || c = '$' || c = '+' || c = '*' || c = '?' || c = '.'

/-- The transformation of a literal (unquoted) match string:
`matchString.replace(preEscapedSlash, '\\\\\\\\')` (each backslash becomes
four) followed by `matchString.replace(escapeStringRegExp, '\\\\$&')` (each
metacharacter `c` becomes `\\c`). -/
def literalTransform (l : List Char) : List Char :=
  replaceEachChar isEscapeStringRegExpChar (fun c => ['\\', '\\', c])
    (replaceEachChar (fun c => c = '\\') (fun _ => ['\\', '\\', '\\', '\\']) l)

/-- The constant `TTL_GRAMMAR_NAME`. -/
def TTL_GRAMMAR_NAME : String := "language-babel-extension"

/-- The constant `TTL_SCOPENAME`. -/
def TTL_SCOPENAME : String := "languagebabel.ttlextension"

/-- The pattern-fragment template returned by `createGrammarPatterns`, with
its three interpolation slots (`contentName`, the transformed `matchString`,
and `includeScope`). -/
def patternTemplate (contentName matchString includeScope : String) : String :=
  "\x7b\n      \"contentName\": \"" ++ contentName ++
  "\",\n      \"begin\": \"\\\\s*+(" ++ matchString ++
  ")\\\\s*(`)\",\n      \"beginCaptures\": \x7b\n        \"1\": \x7b \"name\": \"entity.name.tag.js\" \x7d,\n        \"2\": \x7b \"name\": \"punctuation.definition.quasi.begin.js\" \x7d\n      \x7d,\n      \"end\": \"\\\\s*(?<=[^\\\\\\\\]\\\\\\\\\\\\\\\\|[^\\\\\\\\]|^\\\\\\\\\\\\\\\\|^)((`))\",\n      \"endCaptures\": \x7b\n        \"1\": \x7b \"name\": \"punctuation.definition.quasi.end.js\" \x7d\n      \x7d,\n      \"patterns\": [\n        \x7b \"include\": \"source.js.jsx#literal-quasi-embedded\" \x7d,\n        \x7b \"include\": \"" ++ includeScope ++
  "\" \x7d\n      ]\n    \x7d"

/-- Errors thrown by `createGrammarPatterns`, one constructor per `throw`
site, each carrying the string interpolated into the thrown message. -/
inductive GError where
  | invalidPatternSpec (ttlString : String)
  | malformedRegex (matchString : String)
  | invalidLiteral (matchString : String)
deriving DecidableEq, Repr

instance : DecidableEq (Except GError String) := fun a b =>
  match a, b with
  | .ok x, .ok y =>
    if h : x = y then .isTrue (h ▸ rfl) else .isFalse (fun hc => h (Except.ok.inj hc))
  | .error x, .error y =>
    if h : x = y then .isTrue (h ▸ rfl) else .isFalse (fun hc => h (Except.error.inj hc))
  | .ok _, .error _ => .isFalse (fun hc => Except.noConfusion hc)
  | .error _, .ok _ => .isFalse (fun hc => Except.noConfusion hc)

/-- The external Oniguruma validation capability (`onigurumaCheck`): it either
throws (`Except.error`, carrying the message) or returns whether an Oniguruma
constructor was found.  The result value is ignored by the caller. -/
def OnigCheck : Type := String → Except String Bool

/-- An environment with no Oniguruma available: the check returns `false`
without throwing (the source's behaviour when no grammar matches). -/
def onigAbsent : OnigCheck := fun _ => .ok false

/-- An environment whose validator rejects every regex by throwing. -/
def onigRejecting : OnigCheck := fun _ => .error "not a valid Oniguruma regex"

/-- `createGrammarPatterns(ttlString)`: split at the last colon, validate the
scope reference and non-emptiness, then handle the quoted-regex form or the
literal form, producing the pattern fragment or throwing. -/
def createGrammarPatterns (onig : OnigCheck) (ttlString : String) : Except GError String :=
  let l := ttlString.data
  let matchString := (parseTtl l).1
  let includeScope := (parseTtl l).2
  let isValidIncludeScope := reMatch scopeRE includeScope
  let isQuotedMatchString := reMatch quotedRE matchString
  if matchString.length < 1 || !isValidIncludeScope then
    .error (.invalidPatternSpec ttlString)
  else if isQuotedMatchString then
    let inner := jsSubstring matchString 1 ((matchString.length : Int) - 1)
    match onig ⟨inner⟩ with
    | .error _ => .error (.malformedRegex ⟨inner⟩)
    | .ok _ =>
      .ok (patternTemplate ⟨includeScope.takeWhile (fun c => c ≠ '#')⟩
        ⟨quotedTransform inner⟩ ⟨includeScope⟩)
  else if matchString.any (fun c => c = '"') then
    .error (.invalidLiteral ⟨matchString⟩)
  else
    .ok (patternTemplate ⟨includeScope.takeWhile (fun c => c ≠ '#')⟩
      ⟨literalTransform matchString⟩ ⟨includeScope⟩)

/-- The scope reference of a ttl string (the text after the last colon),
extracted for stating theorems about `createGrammarPatterns`. -/
def scopeRefOf (s : String) : String := ⟨(parseTtl s.data).2⟩

/-- The transformed match string of a ttl string (quoted or literal branch),
extracted for stating theorems about `createGrammarPatterns`. -/
def matchStrOf (s : String) : String :=
  let matchString := (parseTtl s.data).1
  if reMatch quotedRE matchString then
    ⟨quotedTransform (jsSubstring matchString 1 ((matchString.length : Int) - 1))⟩
  else
    ⟨literalTransform matchString⟩

/-- `Array.prototype.map` under thrown exceptions: patterns are compiled in
input order and the first thrown error aborts the whole map. -/
def mapPatterns (onig : OnigCheck) : List String → Except GError (List String)
  | [] => .ok []
  | r :: rs =>
    match createGrammarPatterns onig r with
    | .error e => .error e
    | .ok t =>
      match mapPatterns onig rs with
      | .error e => .error e
      | .ok ts => .ok (t :: ts)

/-- The fixed text of `createGrammarText`'s template before the interpolated
pattern array (with `TTL_GRAMMAR_NAME` and `TTL_SCOPENAME` already
interpolated, as they are constants of the class). -/
def grammarHeader : String :=
  "\x7b\n  \"name\": \"" ++ TTL_GRAMMAR_NAME ++
  "\",\n  \"comment\": \"Auto generated Tag Extensions for language-babel\",\n  \"comment\": \"Please do not edit this file directly\",\n  \"scopeName\": \"" ++
  TTL_SCOPENAME ++ "\",\n  \"fileTypes\": [],\n  \"patterns\": [\n    "

/-- The fixed text of `createGrammarText`'s template after the interpolated
pattern array. -/
def grammarFooter : String := "\n  ]\n\x7d"

/-- `createGrammarText()`: build every pattern from the configured ttl strings
(in order) and interpolate the resulting array into the fixed document
template.  Interpolating a JavaScript array joins its elements with `","`. -/
def createGrammarText (onig : OnigCheck) (ttlConfig : List String) : Except GError String :=
  match mapPatterns onig ttlConfig with
  | .error e => .error e
  | .ok pats => .ok (grammarHeader ++ String.intercalate "," pats ++ grammarFooter)

/-- Does a filename match the generated-file pattern regex `^ttl-`?  The regex is
unanchored at the right, so `test` is prefix matching. -/
def hasTtlPfx (s : String) : Bool := "ttl-".data.isPrefixOf s.data

/-- The grammar directory: a finite map from filename to file content.  The
directory is the single externally-supplied base directory of the store; the
registry and notifier are captured in the event list of a run. -/
structure FsState where
  files : List (String × String)
deriving DecidableEq, Repr

/-- External calls performed by a publish run, in order: registry
removal/load, file deletion/write, and notifications. -/
inductive Event where
  | registryRemove (scopeName : String)
  | fileDelete (path : String)
  | fileWrite (path text : String)
  | registryLoad (path : String)
  | notifyInfo (detail : String)
  | notifyWarning (detail : String)
deriving DecidableEq, Repr

/-- `makeTtlGrammarFilename(hashString)`. -/
def makeTtlGrammarFilename (hashString : String) : String :=
  "ttl-" ++ hashString ++ ".json"

/-- `makeTtlGrammarFilenameAbsoulute(ttlFilename)`: resolve against the
grammar directory path. -/
def makeTtlGrammarFilenameAbsoulute (grammarPath ttlFilename : String) : String :=
  grammarPath ++ "/" ++ ttlFilename

/-- `doesGrammarFileExist(ttlFilename)`: the file-existence check, resolved
against the directory state. -/
def doesGrammarFileExist (st : FsState) (ttlFilename : String) : Bool :=
  st.files.any (fun p => p.1 = ttlFilename)

/-- `getTtlGrammarFiles()`: list the directory and keep the filenames
matching regex `^ttl-`. -/
def getTtlGrammarFiles (st : FsState) : List String :=
  (st.files.map Prod.fst).filter hasTtlPfx

/-- The result of one `createGrammar` run: the directory afterwards, the
external calls made (in order), and the promise's resolution value
(`none` models resolving with `undefined`). -/
structure CreateGrammarResult where
  state : FsState
  events : List Event
  value : Option String
deriving DecidableEq, Repr

/-- `createGrammar({ttlFilename, ttlFilenameAbsolute, grammarText})`: if the
file already exists, resolve immediately (with no value); otherwise remove
the registered grammar, delete every regex `^ttl-` file, write the new file, load
it into the registry and emit the info notification, resolving with the
filename.  External file-system and registry calls are modelled as
succeeding; `removeTtlLanguageFiles` deletes exactly the files listed by
`getTtlGrammarFiles`. -/
def createGrammar (grammarPath ttlFilename grammarText : String) (st : FsState) :
    CreateGrammarResult :=
  if doesGrammarFileExist st ttlFilename then
    ⟨st, [], none⟩
  else
    let removed := getTtlGrammarFiles st
    let kept := st.files.filter (fun p => !hasTtlPfx p.1)
    let abs := makeTtlGrammarFilenameAbsoulute grammarPath ttlFilename
    ⟨⟨kept ++ [(ttlFilename, grammarText)]⟩,
      [Event.registryRemove TTL_SCOPENAME]
        ++ removed.map (fun f => Event.fileDelete (makeTtlGrammarFilenameAbsoulute grammarPath f))
        ++ [Event.fileWrite abs grammarText, Event.registryLoad abs,
            Event.notifyInfo ("Grammar created at \n" ++ abs)],
      some ttlFilename⟩

/-- The publish pipeline executed by `observeTtlConfig`'s timer body on a
given document text: hash it, derive the `ttl-<hash>.json` filename and run
`createGrammar`.  The SHA-256 digest function is the external `crypto`
capability, passed as `sha`. -/
def publish (sha : String → String) (grammarPath grammarText : String) (st : FsState) :
    CreateGrammarResult :=
  let hash := sha grammarText
  let ttlFilename := makeTtlGrammarFilename hash
  createGrammar grammarPath ttlFilename grammarText st

/-- A constant digest function, usable as a concrete `sha` instance. -/
def shaConst : String → String := fun _ => "h"

/-- Debounce model of `observeTtlConfig(timeout)`: the state is the pending
timer's deadline, if any.  `observeTtlConfigRun T env calls pending` processes
the config-change calls (given by their arrival times, in order); a call finds
the pending timer either already fired (deadline ≤ arrival time) or still
pending, in which case `clearTimeout` cancels it; either way `setTimeout`
arms a new timer `T` after the arrival.  A firing timer reads the
configuration at its own firing time (`env`), as the timer body calls
`getTtlConfig()` when it runs; the result lists every firing with the
snapshot it used. -/
def observeTtlConfigRun (T : Nat) (env : Nat → List String) :
    List Nat → Option Nat → List (Nat × List String)
  | [], none => []
  | [], some d => [(d, env d)]
  | t :: ts, none => observeTtlConfigRun T env ts (some (t + T))
  | t :: ts, some d =>
    if d ≤ t then (d, env d) :: observeTtlConfigRun T env ts (some (t + T))
    else observeTtlConfigRun T env ts (some (t + T))

theorem lastIdx_eq_none (c : Char) (l : List Char) (h : c ∉ l) : lastIdx c l = none := by
  induction l with
  | nil => rfl
  | cons a as ih =>
    simp only [List.mem_cons, not_or] at h
    simp [lastIdx, ih h.2, Ne.symm h.1]

theorem lastIdx_append (c : Char) (m r : List Char) (h : c ∉ r) :
    lastIdx c (m ++ c :: r) = some m.length := by
  induction m with
  | nil => simp [lastIdx, lastIdx_eq_none c r h]
  | cons a as ih => simp [lastIdx, ih]

theorem lastColonIndexInt_append (m r : List Char) (h : ':' ∉ r) :
    lastColonIndexInt (m ++ ':' :: r) = (m.length : Int) := by
  simp [lastColonIndexInt, lastIdx_append ':' m r h]

theorem lastColonIndexInt_of_not_mem (l : List Char) (h : ':' ∉ l) :
    lastColonIndexInt l = -1 := by
  simp [lastColonIndexInt, lastIdx_eq_none ':' l h]

theorem jsSubstring_ofNat (l : List Char) (a b : Nat) (ha : a ≤ b) (hb : b ≤ l.length) :
    jsSubstring l a b = (l.take b).drop a := by
  simp only [jsSubstring, jsClamp]
  rw [if_neg (by omega : ¬ ((a : Int) < 0)), if_neg (by omega : ¬ ((b : Int) < 0))]
  simp only [Int.toNat_ofNat]
  rw [min_eq_left (ha.trans hb), min_eq_left hb, max_eq_right ha, min_eq_left ha]

theorem parseTtl_split (m r : List Char) (h : ':' ∉ r) :
    parseTtl (m ++ ':' :: r) = (m, r) := by
  have hlen : m.length + 1 ≤ (m ++ ':' :: r).length := by
    simp [List.length_append]
  simp only [parseTtl, lastColonIndexInt_append m r h]
  rw [Prod.mk.injEq]
  constructor
  · rw [show ((0 : Int) = ((0 : Nat) : Int)) from rfl,
      jsSubstring_ofNat _ 0 m.length (Nat.zero_le _) (by omega)]
    simp [List.take_left]
  · simp only [jsSubstringFrom]
    rw [show ((m.length : Int) + 1 = ((m.length + 1 : Nat) : Int)) by push_cast; ring,
      jsSubstring_ofNat _ (m.length + 1) (m ++ ':' :: r).length (by omega) (le_refl _)]
    rw [List.take_length]
    have : m ++ ':' :: r = (m ++ [':']) ++ r := by simp
    rw [this, show m.length + 1 = (m ++ [':']).length by simp, List.drop_left]

theorem parseTtl_no_colon (l : List Char) (h : ':' ∉ l) :
    parseTtl l = ([], l) := by
  simp only [parseTtl, lastColonIndexInt_of_not_mem l h]
  rw [Prod.mk.injEq]
  constructor
  · simp [jsSubstring, jsClamp]
  · simp only [jsSubstringFrom, show (-1 : Int) + 1 = ((0 : Nat) : Int) from rfl]
    rw [jsSubstring_ofNat _ 0 l.length (Nat.zero_le _) (le_refl _)]
    simp

/-- Data-level view of a ttl string assembled as `m ++ ":" ++ scope`. -/
theorem data_of_assembled (m scope : String) :
    (m ++ ":" ++ scope).data = m.data ++ ':' :: scope.data := by
  rw [String.data_append, String.data_append]
  simp

/-- C9: a rule string with no colon at all always fails with
`InvalidPatternSpec` (the match-expression part of the split is empty), and
no pattern is returned. -/
theorem createGrammarPatterns_no_colon (o : OnigCheck) (s : String) (h : ':' ∉ s.data) :
    createGrammarPatterns o s = .error (.invalidPatternSpec s) := by
  simp [createGrammarPatterns, parseTtl_no_colon s.data h]

/-- C9 witness: the colon-free rule string `"nocolon"` is rejected with
`InvalidPatternSpec`. -/
theorem createGrammarPatterns_no_colon_witness :
    createGrammarPatterns onigAbsent "nocolon" = .error (.invalidPatternSpec "nocolon") :=
  createGrammarPatterns_no_colon onigAbsent "nocolon" (by decide)

/-- Every successful compile produces the pattern template filled with the
parsed scope reference (verbatim), its part before any `#` as content name,
and the branch-appropriate transformation of the match expression. -/
theorem createGrammarPatterns_ok_shape (o : OnigCheck) (s t : String)
    (h : createGrammarPatterns o s = .ok t) :
    t = patternTemplate ⟨(parseTtl s.data).2.takeWhile (fun c => c ≠ '#')⟩ (matchStrOf s)
        ⟨(parseTtl s.data).2⟩ := by
  simp only [createGrammarPatterns] at h
  simp only [matchStrOf]
  split at h
  · exact absurd h (by simp)
  · split at h
    case isTrue hq =>
      split at h
      · exact absurd h (by simp)
      · rw [if_pos hq]
        exact (Except.ok.inj h).symm
    case isFalse hq =>
      split at h
      · exact absurd h (by simp)
      · rw [if_neg hq]
        exact (Except.ok.inj h).symm

theorem createGrammarPatterns_literal_ok (o : OnigCheck) (m scope : String)
    (hcol : ':' ∉ scope.data) (hne : m.data ≠ [])
    (hval : reMatch scopeRE scope.data = true)
    (hq : reMatch quotedRE m.data = false)
    (hnoquote : m.data.any (fun c => c = '"') = false) :
    createGrammarPatterns o (m ++ ":" ++ scope)
      = .ok (patternTemplate ⟨scope.data.takeWhile (fun c => c ≠ '#')⟩
          ⟨literalTransform m.data⟩ scope) := by
  have hlen : m.length ≠ 0 := fun h0 => hne (List.length_eq_zero.mp h0)
  simp only [createGrammarPatterns, data_of_assembled m scope,
    parseTtl_split m.data scope.data hcol]
  simp [hlen, hval, hq, hnoquote]

theorem createGrammarPatterns_literal_err (o : OnigCheck) (m scope : String)
    (hcol : ':' ∉ scope.data) (hne : m.data ≠ [])
    (hval : reMatch scopeRE scope.data = true)
    (hq : reMatch quotedRE m.data = false)
    (hquote : m.data.any (fun c => c = '"') = true) :
    createGrammarPatterns o (m ++ ":" ++ scope) = .error (.invalidLiteral m) := by
  have hlen : m.length ≠ 0 := fun h0 => hne (List.length_eq_zero.mp h0)
  simp only [createGrammarPatterns, data_of_assembled m scope,
    parseTtl_split m.data scope.data hcol]
  simp [hlen, hval, hq, hquote]

/-- C4: `compile("tag:source.example")` succeeds with content name
`source.example`; `compile("tag:source.example#sub")` succeeds with content
name `source.example` and include scope `source.example#sub` (the scope
reference verbatim); and in general every successful compile fills the
pattern template with the scope reference verbatim as include scope and its
portion before any `#` as content name. -/
theorem compile_valid_scope_refs :
    (∀ o : OnigCheck, createGrammarPatterns o "tag:source.example"
        = .ok (patternTemplate "source.example" "tag" "source.example"))
    ∧ (∀ o : OnigCheck, createGrammarPatterns o "tag:source.example#sub"
        = .ok (patternTemplate "source.example" "tag" "source.example#sub"))
    ∧ (∀ (o : OnigCheck) (s t : String), createGrammarPatterns o s = .ok t →
        t = patternTemplate ⟨(scopeRefOf s).data.takeWhile (fun c => c ≠ '#')⟩ (matchStrOf s)
            (scopeRefOf s)) :=
  ⟨fun _ => rfl, fun _ => rfl, fun o s t h => createGrammarPatterns_ok_shape o s t h⟩

/-- C4 witness: the general clause of `compile_valid_scope_refs` evaluated at
the concrete rule `"tag:source.example"`. -/
theorem compile_valid_scope_refs_witness :
    (createGrammarPatterns onigAbsent "tag:source.example").toOption.getD ""
      = patternTemplate
          ⟨(scopeRefOf "tag:source.example").data.takeWhile (fun c => c ≠ '#')⟩
          (matchStrOf "tag:source.example") (scopeRefOf "tag:source.example") :=
  compile_valid_scope_refs.2.2 onigAbsent "tag:source.example"
    ((createGrammarPatterns onigAbsent "tag:source.example").toOption.getD "") rfl

/-- C5 counterexample: the literal-form match expression `a\"b` contains only
an escaped double-quote (the quote is preceded by a backslash), yet compile
rejects it with `InvalidLiteral` — the source tests `/"/` which matches any
double-quote, escaped or not. -/
theorem compile_escaped_quote_literal_cex :
    createGrammarPatterns onigAbsent "a\\\"b:source.example"
      = .error (.invalidLiteral "a\\\"b") := by decide

/-- C5 amended: an accepted-form (unquoted, non-empty, valid-scope) literal
match expression fails with `InvalidLiteral` if and only if it contains a
double-quote anywhere, escaped or not. -/
theorem compile_literal_quote_iff (o : OnigCheck) (m scope : String)
    (hcol : ':' ∉ scope.data) (hne : m.data ≠ [])
    (hval : reMatch scopeRE scope.data = true)
    (hq : reMatch quotedRE m.data = false) :
    createGrammarPatterns o (m ++ ":" ++ scope) = .error (.invalidLiteral m)
      ↔ m.data.any (fun c => c = '"') = true := by
  cases hb : m.data.any (fun c => c = '"') with
  | true =>
    simp only [createGrammarPatterns_literal_err o m scope hcol hne hval hq hb]
  | false =>
    simp only [createGrammarPatterns_literal_ok o m scope hcol hne hval hq hb]
    simp

/-- C5 witness: the amended claim evaluated at the concrete literal `a"b`
(which does contain a double-quote). -/
theorem compile_literal_quote_iff_witness :
    createGrammarPatterns onigAbsent ("a\"b" ++ ":" ++ "source.example")
      = .error (.invalidLiteral "a\"b")
      ↔ "a\"b".data.any (fun c => c = '"') = true :=
  compile_literal_quote_iff onigAbsent "a\"b" "source.example"
    (by decide) (by decide) (by decide) (by decide)

/-- C6: an accepted literal-form match expression is escaped by first turning
each backslash into four backslashes and then prefixing every character of
the metacharacter set with two backslashes, in that order; concretely,
`compile("a.b*c:source.example")` emits the match expression `a\\.b\\*c`, so
`.` and `*` reach the begin pattern escaped. -/
theorem compile_literal_escaping :
    (∀ (o : OnigCheck) (m scope : String), ':' ∉ scope.data → m.data ≠ [] →
        reMatch scopeRE scope.data = true → reMatch quotedRE m.data = false →
        m.data.any (fun c => c = '"') = false →
        createGrammarPatterns o (m ++ ":" ++ scope)
          = .ok (patternTemplate ⟨scope.data.takeWhile (fun c => c ≠ '#')⟩
              ⟨replaceEachChar isEscapeStringRegExpChar (fun c => ['\\', '\\', c])
                (replaceEachChar (fun c => c = '\\') (fun _ => ['\\', '\\', '\\', '\\']) m.data)⟩
              scope))
    ∧ createGrammarPatterns onigAbsent "a.b*c:source.example"
        = .ok (patternTemplate "source.example" "a\\\\.b\\\\*c" "source.example") :=
  ⟨fun o m scope hcol hne hval hq hnoquote =>
    createGrammarPatterns_literal_ok o m scope hcol hne hval hq hnoquote,
   by decide⟩

/-- C6 witness: the general clause of `compile_literal_escaping` evaluated at
the concrete literal `a.b*c`. -/
theorem compile_literal_escaping_witness :
    createGrammarPatterns onigAbsent ("a.b*c" ++ ":" ++ "source.example")
      = .ok (patternTemplate ⟨"source.example".data.takeWhile (fun c => c ≠ '#')⟩
          ⟨replaceEachChar isEscapeStringRegExpChar (fun c => ['\\', '\\', c])
            (replaceEachChar (fun c => c = '\\') (fun _ => ['\\', '\\', '\\', '\\'])
              "a.b*c".data)⟩
          "source.example") :=
  compile_literal_escaping.1 onigAbsent "a.b*c" "source.example"
    (by decide) (by decide) (by decide) (by decide) (by decide)

/-- The success value of a compile does not depend on the Oniguruma
environment: both runs produce the template filled from the rule alone. -/
theorem mapPatterns_ok_indep (o1 o2 : OnigCheck) (rs : List String) (ts1 ts2 : List String)
    (h1 : mapPatterns o1 rs = .ok ts1) (h2 : mapPatterns o2 rs = .ok ts2) : ts1 = ts2 := by
  induction rs generalizing ts1 ts2 with
  | nil =>
    simp only [mapPatterns] at h1 h2
    rw [← Except.ok.inj h1, ← Except.ok.inj h2]
  | cons r rs ih =>
    simp only [mapPatterns] at h1 h2
    cases hc1 : createGrammarPatterns o1 r with
    | error e => rw [hc1] at h1; exact absurd h1 (by simp)
    | ok t1 =>
      rw [hc1] at h1
      cases hc2 : createGrammarPatterns o2 r with
      | error e => rw [hc2] at h2; exact absurd h2 (by simp)
      | ok t2 =>
        rw [hc2] at h2
        cases hm1 : mapPatterns o1 rs with
        | error e => rw [hm1] at h1; exact absurd h1 (by simp)
        | ok us1 =>
          rw [hm1] at h1
          cases hm2 : mapPatterns o2 rs with
          | error e => rw [hm2] at h2; exact absurd h2 (by simp)
          | ok us2 =>
            rw [hm2] at h2
            have ht : t1 = t2 := by
              rw [createGrammarPatterns_ok_shape o1 r t1 hc1,
                createGrammarPatterns_ok_shape o2 r t2 hc2]
            rw [← Except.ok.inj h1, ← Except.ok.inj h2, ht, ih us1 us2 hm1 hm2]

/-- C3: the document builder is deterministic — whenever two invocations on
the same ordered rule list both succeed, even under different external
environments (different Oniguruma capabilities), they produce byte-identical
document text. -/
theorem createGrammarText_deterministic (o1 o2 : OnigCheck) (rules : List String)
    (t1 t2 : String) (h1 : createGrammarText o1 rules = .ok t1)
    (h2 : createGrammarText o2 rules = .ok t2) : t1 = t2 := by
  simp only [createGrammarText] at h1 h2
  cases hm1 : mapPatterns o1 rules with
  | error e => rw [hm1] at h1; exact absurd h1 (by simp)
  | ok ts1 =>
    rw [hm1] at h1
    cases hm2 : mapPatterns o2 rules with
    | error e => rw [hm2] at h2; exact absurd h2 (by simp)
    | ok ts2 =>
      rw [hm2] at h2
      rw [← Except.ok.inj h1, ← Except.ok.inj h2, mapPatterns_ok_indep o1 o2 rules ts1 ts2 hm1 hm2]

/-- C3 witness: building twice from the same two-rule list (once with no
validator, once with a rejecting validator) yields identical text. -/
theorem createGrammarText_deterministic_witness :
    (createGrammarText onigAbsent ["tag:source.alpha", "tag2:source.beta"]).toOption.getD ""
      = (createGrammarText onigRejecting ["tag:source.alpha", "tag2:source.beta"]).toOption.getD "" :=
  createGrammarText_deterministic onigAbsent onigRejecting
    ["tag:source.alpha", "tag2:source.beta"] _ _ rfl rfl

theorem mapPatterns_fail_first (o : OnigCheck) (good : List String) (bad : String)
    (rest : List String) (e : GError)
    (hgood : good.all (fun r => (createGrammarPatterns o r).isOk) = true)
    (hbad : createGrammarPatterns o bad = .error e) :
    mapPatterns o (good ++ bad :: rest) = .error e := by
  induction good with
  | nil => simp [mapPatterns, hbad]
  | cons g gs ih =>
    simp only [List.all_cons, Bool.and_eq_true] at hgood
    obtain ⟨hg, hgs⟩ := hgood
    cases hc : createGrammarPatterns o g with
    | error e2 => rw [hc] at hg; simp [Except.isOk, Except.toBool] at hg
    | ok t => simp [mapPatterns, hc, ih hgs]

/-- C7: if any rule in the list is invalid, the whole build fails with the
error of the first invalid rule (rules before it all compile), and no
document text is returned at all. -/
theorem createGrammarText_fail_fast (o : OnigCheck) (good : List String) (bad : String)
    (rest : List String) (e : GError)
    (hgood : good.all (fun r => (createGrammarPatterns o r).isOk) = true)
    (hbad : createGrammarPatterns o bad = .error e) :
    createGrammarText o (good ++ bad :: rest) = .error e := by
  simp [createGrammarText, mapPatterns_fail_first o good bad rest e hgood hbad]

/-- C7 witness: a list whose second rule has no colon fails with that rule's
`InvalidPatternSpec`, even though a later rule is also invalid. -/
theorem createGrammarText_fail_fast_witness :
    createGrammarText onigAbsent (["tag:source.alpha"] ++ "nope" :: ["alsobad"])
      = .error (.invalidPatternSpec "nope") :=
  createGrammarText_fail_fast onigAbsent ["tag:source.alpha"] "nope" ["alsobad"]
    (.invalidPatternSpec "nope") (by decide) (by decide)

/-- Number of (possibly overlapping) occurrences of `pat` in a list. -/
def countOcc (pat : List Char) : List Char → Nat
  | [] => 0
  | c :: cs => (if pat.isPrefixOf (c :: cs) then 1 else 0) + countOcc pat cs

/-- C10: every document text the builder produces starts with the fixed
header, in which the object key `"comment"` appears twice at the top level —
once with the value `Auto generated Tag Extensions for language-babel` and
once with `Please do not edit this file directly` — so the document is not a
JSON object with unique keys. -/
theorem createGrammarText_duplicate_comment_key (o : OnigCheck) (rules : List String)
    (t : String) (h : createGrammarText o rules = .ok t) :
    grammarHeader.data.isPrefixOf t.data = true
    ∧ countOcc "\"comment\": \"Auto generated Tag Extensions for language-babel\"".data
        grammarHeader.data = 1
    ∧ countOcc "\"comment\": \"Please do not edit this file directly\"".data
        grammarHeader.data = 1 := by
  refine ⟨?_, by decide, by decide⟩
  simp only [createGrammarText] at h
  cases hm : mapPatterns o rules with
  | error e => rw [hm] at h; exact absurd h (by simp)
  | ok ts =>
    rw [hm] at h
    rw [← Except.ok.inj h, String.data_append, String.data_append, List.append_assoc,
      List.isPrefixOf_iff_prefix]
    exact List.prefix_append _ _

/-- C10 witness: the duplicate-key property evaluated on the empty rule
list's document. -/
theorem createGrammarText_duplicate_comment_key_witness :
    grammarHeader.data.isPrefixOf ((createGrammarText onigAbsent []).toOption.getD "").data = true
    ∧ countOcc "\"comment\": \"Auto generated Tag Extensions for language-babel\"".data
        grammarHeader.data = 1
    ∧ countOcc "\"comment\": \"Please do not edit this file directly\"".data
        grammarHeader.data = 1 :=
  createGrammarText_duplicate_comment_key onigAbsent [] _ rfl

theorem isPrefixOf_append_self (p r : List Char) : p.isPrefixOf (p ++ r) = true := by
  rw [List.isPrefixOf_iff_prefix]
  exact List.prefix_append p r

theorem hasTtlPfx_makeTtl (h : String) : hasTtlPfx (makeTtlGrammarFilename h) = true := by
  simp only [hasTtlPfx, makeTtlGrammarFilename, String.data_append, List.append_assoc]
  exact isPrefixOf_append_self _ _

/-- After a publish, the file named by the text's digest exists. -/
theorem exists_after_publish (sha : String → String) (dir text : String) (st : FsState) :
    doesGrammarFileExist (publish sha dir text st).state
      (makeTtlGrammarFilename (sha text)) = true := by
  by_cases hx : doesGrammarFileExist st (makeTtlGrammarFilename (sha text)) = true
  · simp only [publish, createGrammar, if_pos hx]
    exact hx
  · rw [Bool.not_eq_true] at hx
    simp only [publish, createGrammar, hx, Bool.false_eq_true, if_false]
    simp [doesGrammarFileExist, List.any_append]

/-- C1 amended: once the grammar file for a document text exists (in
particular after any first `publish` of that text), publishing the same text
again is a complete no-op — the directory is unchanged, no file is written or
deleted, no registry call and no notification happens — and the promise
resolves with no value (`undefined`), not with the filename. -/
theorem publish_second_call_noop (sha : String → String) (dir text : String) (st : FsState) :
    publish sha dir text (publish sha dir text st).state
      = ⟨(publish sha dir text st).state, [], none⟩ := by
  have hx := exists_after_publish sha dir text st
  show createGrammar dir (makeTtlGrammarFilename (sha text)) text _ = _
  rw [createGrammar, if_pos hx]

/-- C1 counterexample: starting from an empty directory, the first publish of
`"T"` resolves with the filename, but the second publish of the same text
resolves with no value — not with the same filename, contradicting the claim
that the second call returns the first call's filename. -/
theorem publish_second_call_value_cex :
    (publish shaConst "G" "T" (publish shaConst "G" "T" ⟨[]⟩).state).value = none
    ∧ (publish shaConst "G" "T" ⟨[]⟩).value = some (makeTtlGrammarFilename (shaConst "T"))
    ∧ (none : Option String) ≠ some (makeTtlGrammarFilename (shaConst "T")) := by decide

theorem kept_ttl_files (l : List (String × String)) :
    ((l.filter (fun p => !hasTtlPfx p.1)).map Prod.fst).filter hasTtlPfx = [] := by
  induction l with
  | nil => rfl
  | cons a as ih =>
    by_cases ha : hasTtlPfx a.1 = true
    · simp [List.filter_cons, ha, ih]
    · rw [Bool.not_eq_true] at ha
      simp [List.filter_cons, ha, ih]

theorem kept_no_ttl_name (l : List (String × String)) (fn : String)
    (hfn : hasTtlPfx fn = true) :
    (l.filter (fun p => !hasTtlPfx p.1)).any (fun p => p.1 = fn) = false := by
  induction l with
  | nil => rfl
  | cons a as ih =>
    by_cases ha : hasTtlPfx a.1 = true
    · simp [List.filter_cons, ha, ih]
    · rw [Bool.not_eq_true] at ha
      have hne : a.1 ≠ fn := by
        intro he
        rw [he, hfn] at ha
        exact Bool.true_eq_false.mp ha
      simp [List.filter_cons, ha, ih, hne]

/-- The directory contents after the create branch of `createGrammar`. -/
theorem publish_miss (sha : String → String) (dir text : String) (st : FsState)
    (hmiss : doesGrammarFileExist st (makeTtlGrammarFilename (sha text)) = false) :
    (publish sha dir text st).state
      = ⟨st.files.filter (fun p => !hasTtlPfx p.1)
          ++ [(makeTtlGrammarFilename (sha text), text)]⟩ := by
  simp only [publish, createGrammar, hmiss, Bool.false_eq_true, if_false]

theorem getTtl_after_create (st : FsState) (fn text : String) (hfn : hasTtlPfx fn = true) :
    getTtlGrammarFiles ⟨st.files.filter (fun p => !hasTtlPfx p.1) ++ [(fn, text)]⟩ = [fn] := by
  simp [getTtlGrammarFiles, List.map_append, List.filter_append, kept_ttl_files st.files, hfn]

theorem not_exists_of_ttl_clean (st : FsState) (fn : String) (hfn : hasTtlPfx fn = true)
    (hclean : getTtlGrammarFiles st = []) : doesGrammarFileExist st fn = false := by
  by_contra hx
  rw [Bool.not_eq_false] at hx
  simp only [doesGrammarFileExist, List.any_eq_true, decide_eq_true_eq] at hx
  obtain ⟨p, hp, hpfn⟩ := hx
  have hmem : fn ∈ (st.files.map Prod.fst).filter hasTtlPfx :=
    List.mem_filter.mpr ⟨List.mem_map.mpr ⟨p, hp, hpfn⟩, hfn⟩
  rw [show (st.files.map Prod.fst).filter hasTtlPfx = getTtlGrammarFiles st from rfl,
    hclean] at hmem
  exact absurd hmem (List.not_mem_nil fn)

/-- C2: starting from a directory with no generated (`ttl-`-prefixed) files,
after `publish(textA)` and then `publish(textB)` exactly one generated file
remains and it is the one named by `textB`'s digest; and more generally a
publish never increases the number of generated files beyond one. -/
theorem publish_single_live_artifact :
    (∀ (sha : String → String) (dir : String) (stA : FsState) (tA tB : String),
        getTtlGrammarFiles stA = [] →
        getTtlGrammarFiles (publish sha dir tB (publish sha dir tA stA).state).state
          = [makeTtlGrammarFilename (sha tB)])
    ∧ (∀ (sha : String → String) (dir : String) (st : FsState) (t : String),
        (getTtlGrammarFiles st).length ≤ 1 →
        (getTtlGrammarFiles (publish sha dir t st).state).length ≤ 1) := by
  constructor
  · intro sha dir stA tA tB hclean
    have hfnA : hasTtlPfx (makeTtlGrammarFilename (sha tA)) = true := hasTtlPfx_makeTtl _
    have hfnB : hasTtlPfx (makeTtlGrammarFilename (sha tB)) = true := hasTtlPfx_makeTtl _
    have hmissA : doesGrammarFileExist stA (makeTtlGrammarFilename (sha tA)) = false :=
      not_exists_of_ttl_clean stA _ hfnA hclean
    have hstate1 := publish_miss sha dir tA stA hmissA
    have httl1 : getTtlGrammarFiles (publish sha dir tA stA).state
        = [makeTtlGrammarFilename (sha tA)] := by
      rw [hstate1]
      exact getTtl_after_create stA _ tA hfnA
    by_cases hAB : makeTtlGrammarFilename (sha tB) = makeTtlGrammarFilename (sha tA)
    · have hex : doesGrammarFileExist (publish sha dir tA stA).state
          (makeTtlGrammarFilename (sha tB)) = true := by
        rw [hAB]
        exact exists_after_publish sha dir tA stA
      have hnoop : publish sha dir tB (publish sha dir tA stA).state
          = ⟨(publish sha dir tA stA).state, [], none⟩ := by
        show createGrammar dir (makeTtlGrammarFilename (sha tB)) tB _ = _
        rw [createGrammar, if_pos hex]
      rw [hnoop, httl1, hAB]
    · have hmissB : doesGrammarFileExist (publish sha dir tA stA).state
          (makeTtlGrammarFilename (sha tB)) = false := by
        rw [hstate1]
        simp only [doesGrammarFileExist, List.any_append]
        rw [kept_no_ttl_name stA.files _ hfnB]
        simp [Ne.symm hAB]
      rw [publish_miss sha dir tB _ hmissB]
      exact getTtl_after_create _ _ tB hfnB
  · intro sha dir st t hle
    by_cases hx : doesGrammarFileExist st (makeTtlGrammarFilename (sha t)) = true
    · have hnoop : publish sha dir t st = ⟨st, [], none⟩ := by
        show createGrammar dir (makeTtlGrammarFilename (sha t)) t _ = _
        rw [createGrammar, if_pos hx]
      rw [hnoop]
      exact hle
    · rw [Bool.not_eq_true] at hx
      rw [publish_miss sha dir t st hx, getTtl_after_create st _ t (hasTtlPfx_makeTtl _)]
      simp

/-- C2 witness: publishing `"A"` then `"B"` (digest = identity) from an empty
directory leaves exactly the file named by `"B"`'s digest. -/
theorem publish_single_live_artifact_witness :
    getTtlGrammarFiles
        (publish (fun s => s) "G" "B" (publish (fun s => s) "G" "A" ⟨[]⟩).state).state
      = [makeTtlGrammarFilename ((fun s : String => s) "B")] :=
  publish_single_live_artifact.1 (fun s => s) "G" ⟨[]⟩ "A" "B" rfl

/-- C8: for a burst of calls each arriving strictly before the pending quiet
period ends, the timer fires exactly once, at `quietPeriod` after the last
call, and the executed action reads the configuration at that firing time
(not at any scheduling time). -/
theorem observeTtlConfig_debounce (T : Nat) (env : Nat → List String) (t0 : Nat)
    (ts : List Nat) (hburst : List.Chain (fun a b => b < a + T) t0 ts) :
    observeTtlConfigRun T env (t0 :: ts) none
      = [(ts.getLastD t0 + T, env (ts.getLastD t0 + T))] := by
  have key : ∀ (us : List Nat) (u0 : Nat), List.Chain (fun a b => b < a + T) u0 us →
      observeTtlConfigRun T env us (some (u0 + T))
        = [(us.getLastD u0 + T, env (us.getLastD u0 + T))] := by
    intro us
    induction us with
    | nil => intro u0 _; rfl
    | cons u1 us ih =>
      intro u0 hch
      rw [List.chain_cons] at hch
      obtain ⟨h1, h2⟩ := hch
      have hstep : observeTtlConfigRun T env (u1 :: us) (some (u0 + T))
          = if u0 + T ≤ u1 then
              (u0 + T, env (u0 + T)) :: observeTtlConfigRun T env us (some (u1 + T))
            else observeTtlConfigRun T env us (some (u1 + T)) := rfl
      rw [hstep, if_neg (by omega), List.getLastD_cons]
      exact ih u1 h2
  have h0 : observeTtlConfigRun T env (t0 :: ts) none
      = observeTtlConfigRun T env ts (some (t0 + T)) := rfl
  rw [h0]
  exact key ts t0 hburst

/-- C8 witness: three calls at times 0, 3, 5 within a quiet period of 10
produce exactly one firing, at time 15, using the snapshot read at time 15. -/
theorem observeTtlConfig_debounce_witness :
    observeTtlConfigRun 10 (fun t => [toString t]) [0, 3, 5] none = [(15, ["15"])] :=
  observeTtlConfig_debounce 10 (fun t => [toString t]) 0 [3, 5]
    (List.Chain.cons (by omega) (List.Chain.cons (by omega) List.Chain.nil))

example : reMatch scopeRE "source.example".data = true := by decide
example : reMatch scopeRE "source.example#sub".data = true := by decide
example : reMatch scopeRE "1nvalid..".data = false := by decide
example : reMatch quotedRE "\"ab\"".data = true := by decide
example : reMatch quotedRE "tag".data = false := by decide
example :
    createGrammarPatterns onigAbsent "tag:source.example"
      = .ok (patternTemplate "source.example" "tag" "source.example") := by decide

end CreateTtlGrammar
